import Mathlib

/-!
Verification of the mautrix-telegram core against its specification.

We shallowly embed the two components described by the spec:

* the identity/intent session manager (`src/mautrix_appservice/intent_api.py`):
  mxid validation in `IntentAPI.__init__`, `_ensure_registered`,
  `_ensure_joined`, `join_room`, `leave_room` and `invite`, driven by a
  `World` of scripted transport responses and producing an event trace;
* the configuration layer (`src/mautrix_telegram/config.py`):
  `DictWithRecursion` dotted-path access, `Config.update` migration and
  `Config.get_permissions`.

Python strings are embedded as `String`/`List Char`, dicts (`CommentedMap`)
as insertion-ordered association lists, YAML values as the inductive
`YValue`, and Python exceptions as `Except` errors.  A dotted key string
`"a.b.c"` is embedded as its list of dot-separated segments
`["a", "b", "c"]` (Python repeatedly applies `key.split('.', 1)`, which
enumerates exactly those segments in order).
-/

set_option autoImplicit false

namespace Mautrix

/-! ## Embedding of `IntentAPI.mxid_regex = re.compile("@(.+):(.+)")` and
`re.search` on it.

`re.search` finds the leftmost position where the pattern matches.  A match
starts at a literal `@`; the two `(.+)` groups are greedy and `.` does not
match a newline, so the whole match lies inside the maximal newline-free
segment following the `@`, the separator `:` matched by the backtracking
first group is the *last* colon of that segment that leaves at least one
character on each side, group 1 is everything before that colon and group 2
everything after it (up to the newline / end). -/

/-- Index of the last `':'` in the list (indices counted from `start`)
that is a valid separator for `@(.+):(.+)`: at least one character before
it (index at least 1) and at least one after it inside the segment
(`index + 1 < len`).  Scans the list, preferring later candidates. -/
def findSepAux (len : Nat) : List Char → Nat → Option Nat
  | [], _ => none
  | c :: rest, i =>
    match findSepAux len rest (i + 1) with
    | some j => some j
    | none => if c = ':' ∧ 1 ≤ i ∧ i + 1 < len then some i else none

def findSep (seg : List Char) : Option Nat :=
  findSepAux seg.length seg 0

/-- Attempt to match `(.+):(.+)` (each `.` excluding newline, groups
greedy) against a prefix of `rest`, the characters following a literal
`@`.  Returns the two captured groups. -/
def matchFrom (rest : List Char) : Option (List Char × List Char) :=
  let seg := rest.takeWhile (fun c => c ≠ '\n')
  match findSep seg with
  | some j => some (seg.take j, seg.drop (j + 1))
  | none => none

/-- `re.search("@(.+):(.+)", s)`: scan positions left to right; a match can
only begin at an `@`. -/
def mxidSearch : List Char → Option (List Char × List Char)
  | [] => none
  | c :: rest =>
    if c = '@' then
      match matchFrom rest with
      | some r => some r
      | none => mxidSearch rest
    else mxidSearch rest

/-- The fields of a freshly constructed `IntentAPI` that the claims talk
about (`mxid`, `localpart`, `registered`). -/
structure InitResult where
  mxid : List Char
  localpart : List Char
  registered : Bool
deriving DecidableEq, Repr

/-- `IntentAPI.__init__`: `results = mxid_regex.search(mxid)`; raises
`ValueError("invalid MXID")` when there is no match, otherwise stores
`localpart = results.group(1)` and `registered = False`. -/
def IntentAPI_init (mxid : List Char) : Except String InitResult :=
  match mxidSearch mxid with
  | none => .error "invalid MXID"
  | some r => .ok ⟨mxid, r.1, false⟩

/-! ## YAML values and `CommentedMap`s as association lists -/

/-- A YAML value as handled by the config code: scalars, sequences and
(`CommentedMap`) mappings.  Python `None` is `.null`. -/
inductive YValue where
  | null
  | bool (b : Bool)
  | str (s : String)
  | list (xs : List YValue)
  | map (m : List (String × YValue))

/-- A `CommentedMap`: string-keyed, insertion ordered. -/
abbrev AList := List (String × YValue)

/-- Python dict lookup `data[key]` / `data.get(key)` as an `Option`. -/
def alist_find? : AList → String → Option YValue
  | [], _ => none
  | (k, v) :: rest, key => if k = key then some v else alist_find? rest key

/-- Python dict assignment `data[key] = value`: updates an existing key in
place (keeping its position) or appends a new entry. -/
def alist_store : AList → String → YValue → AList
  | [], key, v => [(key, v)]
  | (k, w) :: rest, key, v =>
    if k = key then (k, v) :: rest else (k, w) :: alist_store rest key v

/-- Python `del data[key]` (with the `KeyError` swallowed by the caller):
removes the entry with the given key, if present. -/
def alist_drop : AList → String → AList
  | [], _ => []
  | (k, w) :: rest, key =>
    if k = key then rest else (k, w) :: alist_drop rest key

/-- Python key containment `key in data` on a dict. -/
def alist_hasKey (d : AList) (k : String) : Bool :=
  (alist_find? d k).isSome

/-- Python truthiness of a YAML value (`None`, `False`, `""`, `[]` and
`{}` are falsy). -/
def truthy : YValue → Bool
  | .null => false
  | .bool b => b
  | .str s => s ≠ ""
  | .list xs => !xs.isEmpty
  | .map m => !m.isEmpty

def isNull : YValue → Bool
  | .null => true
  | _ => false

/-- Python `value == "somestring"` for a YAML value: only a string
compares equal to a string, all other values give `False`. -/
def yEqStr : YValue → String → Bool
  | .str s, t => s = t
  | _, _ => false

/-! ## `DictWithRecursion`

A dotted key is embedded as its (nonempty) list of segments; `'.' in key`
corresponds to the list having at least two segments.  `CommentedMap.get`
on a non-mapping intermediate value raises in Python (`AttributeError` /
`TypeError`); we surface those as `Except.error`.  The comment bookkeeping
(`data.ca.items`) has no effect on values and is not modelled. -/

/-- `DictWithRecursion._recursive_get(data, key, default_value)`:
split off the first segment, look it up with an empty map as fallback,
and recurse; the final segment is a plain `get` with the default. -/
def recursive_get : AList → List String → YValue → Except String YValue
  | data, [k], default_value => .ok ((alist_find? data k).getD default_value)
  | data, k :: rest, default_value =>
    match (alist_find? data k).getD (.map []) with
    | .map m => recursive_get m rest default_value
    | _ => .error "AttributeError"
  | data, [], default_value => .ok ((alist_find? data "").getD default_value)

/-- `DictWithRecursion.get(key, default_value)` (with recursion
allowed, the only mode the code uses). -/
def dget (data : AList) (key : List String) (default_value : YValue) :
    Except String YValue :=
  if 2 ≤ key.length then recursive_get data key default_value
  else .ok ((alist_find? data (key.headD "")).getD default_value)

/-- `DictWithRecursion.__contains__`: `self[key] is not None`. -/
def dhas (data : AList) (key : List String) : Except String Bool := do
  let v ← dget data key .null
  .ok (!isNull v)

/-- `DictWithRecursion._recursive_set(data, key, value)`: materializes an
empty `CommentedMap` for a missing intermediate segment, then recurses
into the nested map; the final segment is a plain assignment. -/
def recursive_set : AList → List String → YValue → Except String AList
  | data, [k], value => .ok (alist_store data k value)
  | data, k :: rest, value =>
    let data := if alist_hasKey data k then data else alist_store data k (.map [])
    match (alist_find? data k).getD (.map []) with
    | .map m => (recursive_set m rest value).map (fun m2 => alist_store data k (.map m2))
    | _ => .error "TypeError"
  | data, [], value => .ok (alist_store data "" value)

/-- `DictWithRecursion.set(key, value)` (recursion allowed). -/
def dset (data : AList) (key : List String) (value : YValue) :
    Except String AList :=
  if 2 ≤ key.length then recursive_set data key value
  else .ok (alist_store data (key.headD "") value)

/-- `DictWithRecursion._recursive_del(data, key)`: returns unchanged when
an intermediate segment is absent; the final segment is a plain `del`
with `KeyError` swallowed. -/
def recursive_del : AList → List String → Except String AList
  | data, [k] => .ok (alist_drop data k)
  | data, k :: rest =>
    match alist_find? data k with
    | none => .ok data
    | some (.map m) => (recursive_del m rest).map (fun m2 => alist_store data k (.map m2))
    | some _ => .error "TypeError"
  | data, [] => .ok (alist_drop data "")

/-- `DictWithRecursion.delete(key)` (recursion allowed). -/
def ddel (data : AList) (key : List String) : Except String AList :=
  if 2 ≤ key.length then recursive_del data key
  else .ok (alist_drop data (key.headD ""))

/-- Every segment of the path that is present in the document maps to a
mapping node; absent segments are allowed.  This is the precondition under
which the claims say dotted access never raises. -/
def pathClear : AList → List String → Bool
  | _, [] => true
  | _, [_] => true
  | data, k :: rest =>
    match alist_find? data k with
    | some (.map m) => pathClear m rest
    | some _ => false
    | none => true

/-! ## `Config` permission resolution -/

/-- `Config._get_permissions(key)`: re-reads `self["bridge.permissions"]`
(raising `AttributeError` when it is not a mapping), takes
`level = permissions.get(key, "")` and derives the flag tuple
`(relaybot, user, puppeting, matrix_puppeting, admin, level)`. -/
def get_permissions_inner (data : AList) (key : String) :
    Except String (Bool × Bool × Bool × Bool × Bool × YValue) := do
  let pv ← dget data ["bridge", "permissions"] .null
  match pv with
  | .map m =>
    let level := (alist_find? m key).getD (.str "")
    let admin := yEqStr level "admin"
    let matrix_puppeting := yEqStr level "full" || admin
    let puppeting := yEqStr level "puppeting" || matrix_puppeting
    let user := yEqStr level "user" || puppeting
    let relaybot := yEqStr level "relaybot" || user
    .ok (relaybot, user, puppeting, matrix_puppeting, admin, level)
  | _ => .error "AttributeError"

/-- `mxid[mxid.index(":") + 1:]`: everything after the first colon;
`str.index` raises `ValueError` when there is no colon. -/
def afterColon : List Char → Except String (List Char)
  | [] => .error "ValueError"
  | c :: rest => if c = ':' then .ok rest else afterColon rest

/-- `Config.get_permissions(mxid)`: exact key, then the homeserver part
after the first colon, then the `"*"` wildcard.  `permissions` is
`self["bridge.permissions"] or {}` (a falsy value becomes the empty map;
a truthy non-mapping value makes the `in` checks raise). -/
def get_permissions (data : AList) (mxid : String) :
    Except String (Bool × Bool × Bool × Bool × Bool × YValue) := do
  let pv ← dget data ["bridge", "permissions"] .null
  let permissions ← match pv with
    | .map m => Except.ok m
    | v => if truthy v then .error "TypeError" else .ok ([] : AList)
  if alist_hasKey permissions mxid then get_permissions_inner data mxid
  else do
    let hs ← afterColon mxid.data
    let homeserver : String := ⟨hs⟩
    if alist_hasKey permissions homeserver then get_permissions_inner data homeserver
    else get_permissions_inner data "*"

/-! ## `Config.update` (configuration migration)

`load_base` returns `None` on `OSError`; we pass its result in as an
`Option AList`.  The single random token `update` can consume (for the
`"generate"` provisioning-secret sentinel) is passed in as `newToken`.
`save` is modelled by recording the written documents. -/

/-- Python `f"{value}"` for the scalar YAML values the migration formats;
container values never occur in the formatted fields and are rendered
canonically. -/
def pyStr : YValue → String
  | .null => "None"
  | .bool b => if b then "True" else "False"
  | .str s => s
  | .list _ => "<list>"
  | .map _ => "<map>"

/-- `copy(from_path, to_path)`: `if from_path in self: base[to_path or
from_path] = self[from_path]`. -/
def copy (self base : AList) (from_path to_path : List String) :
    Except String AList := do
  let v ← dget self from_path .null
  if isNull v then .ok base else dset base to_path v

/-- A run of consecutive `copy(p)` calls (each with `to_path = from_path`),
in order. -/
def copies (self : AList) (base : AList) (paths : List (List String)) :
    Except String AList :=
  paths.foldlM (fun b p => copy self b p p) base

/-- `copy_dict(from_path, to_path, override_existing_map)`: when the source
has the key, optionally reset the target to an empty map, then store each
entry of the source mapping into the target mapping in iteration order. -/
def copy_dict (self base : AList) (from_path to_path : List String)
    (override_existing_map : Bool) : Except String AList := do
  let v ← dget self from_path .null
  if isNull v then .ok base
  else do
    let present ← dhas base to_path
    let base ← if override_existing_map || !present then dset base to_path (.map [])
      else .ok base
    match v with
    | .map entries =>
      entries.foldlM (fun b kv => do
        let cur ← dget b to_path .null
        match cur with
        | .map m => dset b to_path (.map (alist_store m kv.1 kv.2))
        | _ => .error "TypeError") base
    | _ => .error "AttributeError"

/-- An entry of a whitelist/admin list used as a dict key (the config lists
hold strings; a non-string entry is a type error). -/
def asKey : YValue → Except String String
  | .str s => .ok s
  | _ => .error "TypeError"

/-- `value or []` followed by iteration: a falsy value yields no entries,
a sequence yields its elements, a truthy non-sequence raises. -/
def orEntries : YValue → Except String (List YValue)
  | .list xs => .ok xs
  | v => if truthy v then .error "TypeError" else .ok []

/-- The permission map synthesized by the legacy branch of the migration:
start from `self["bridge.permissions"] or CommentedMap()`, store `"full"`
for every `bridge.whitelist` entry, then `"admin"` for every
`bridge.admins` entry. -/
def migratedPermissionMap (self : AList) : Except String AList := do
  let pv ← dget self ["bridge", "permissions"] .null
  let permissions ← match pv with
    | .map m => Except.ok m
    | v => if truthy v then .error "TypeError" else .ok ([] : AList)
  let wlv ← dget self ["bridge", "whitelist"] .null
  let wl ← orEntries wlv
  let permissions ← wl.foldlM (fun pm e => do
    let k ← asKey e
    Except.ok (alist_store pm k (.str "full"))) permissions
  let adv ← dget self ["bridge", "admins"] .null
  let ad ← orEntries adv
  let permissions ← ad.foldlM (fun pm e => do
    let k ← asKey e
    Except.ok (alist_store pm k (.str "admin"))) permissions
  .ok permissions

/-- The persistent state of a `Config` object, with the file writes done
by `save()` recorded in `savedConfigs` / `savedRegistrations`. -/
structure ConfigState where
  data : AList
  registration_path : String
  registration : Option AList
  savedConfigs : List AList
  savedRegistrations : List AList

/-- `Config.save()`: always writes the config document; writes the
registration only when one has been generated and a registration path is
configured. -/
def Config_save (st : ConfigState) : ConfigState :=
  { st with
    savedConfigs := st.savedConfigs ++ [st.data]
    savedRegistrations := st.savedRegistrations ++
      (match st.registration with
       | some r => if st.registration_path ≠ "" then [r] else []
       | none => []) }

/-- `Config.update()`.  `baseDoc` is the result of `load_base()` (`none`
when the base template could not be read, in which case the method returns
immediately); `newToken` is the value `_new_token()` would produce for the
provisioning shared secret. -/
def Config_update (baseDoc : Option AList) (newToken : String)
    (st : ConfigState) : Except String ConfigState := do
  match baseDoc with
  | none => .ok st
  | some base => do
    let self := st.data
    let base ← copies self base
      [["homeserver", "address"], ["homeserver", "verify_ssl"], ["homeserver", "domain"]]

    let hasProtocol ← dhas self ["appservice", "protocol"]
    let hasAddress ← dhas self ["appservice", "address"]
    let base ← if hasProtocol && !hasAddress then do
        let protocol ← dget self ["appservice", "protocol"] .null
        let hostname ← dget self ["appservice", "hostname"] .null
        let port ← dget self ["appservice", "port"] .null
        dset base ["appservice", "address"]
          (.str (pyStr protocol ++ "://" ++ pyStr hostname ++ ":" ++ pyStr port))
      else copy self base ["appservice", "address"] ["appservice", "address"]
    let base ← copies self base
      [["appservice", "hostname"], ["appservice", "port"], ["appservice", "database"],
       ["appservice", "public", "enabled"], ["appservice", "public", "prefix"],
       ["appservice", "public", "external"],
       ["appservice", "provisioning", "enabled"], ["appservice", "provisioning", "prefix"],
       ["appservice", "provisioning", "shared_secret"]]
    let secret ← dget base ["appservice", "provisioning", "shared_secret"] .null
    let base ← if yEqStr secret "generate" then
        dset base ["appservice", "provisioning", "shared_secret"] (.str newToken)
      else .ok base
    let base ← copies self base
      [["appservice", "id"], ["appservice", "bot_username"],
       ["appservice", "bot_displayname"], ["appservice", "bot_avatar"],
       ["appservice", "as_token"], ["appservice", "hs_token"],
       ["bridge", "username_template"], ["bridge", "alias_template"],
       ["bridge", "displayname_template"], ["bridge", "displayname_preference"],
       ["bridge", "edits_as_replies"], ["bridge", "highlight_edits"],
       ["bridge", "bridge_notices"], ["bridge", "bot_messages_as_notices"],
       ["bridge", "max_initial_member_sync"], ["bridge", "sync_channel_members"],
       ["bridge", "max_telegram_delete"], ["bridge", "allow_matrix_login"],
       ["bridge", "inline_images"], ["bridge", "plaintext_highlights"],
       ["bridge", "public_portals"], ["bridge", "native_stickers"],
       ["bridge", "catch_up"], ["bridge", "sync_with_custom_puppets"]]

    let hasLegacyFormats ← dhas self ["bridge", "message_formats", "m_text"]
    let self ← if hasLegacyFormats then ddel self ["bridge", "message_formats"]
      else .ok self
    let base ← copy_dict self base ["bridge", "message_formats"]
      ["bridge", "message_formats"] false
    let base ← copies self base
      [["bridge", "state_event_formats", "join"], ["bridge", "state_event_formats", "leave"],
       ["bridge", "state_event_formats", "name_change"],
       ["bridge", "filter", "mode"], ["bridge", "filter", "list"],
       ["bridge", "command_prefix"]]

    let hasPermissions ← dhas self ["bridge", "permissions"]
    let hasWhitelist ← dhas self ["bridge", "whitelist"]
    let hasAdmins ← dhas self ["bridge", "admins"]
    let migrate_permissions := !hasPermissions || hasWhitelist || hasAdmins
    let base ← if migrate_permissions then do
        let permissions ← migratedPermissionMap self
        dset base ["bridge", "permissions"] (.map permissions)
      else copy_dict self base ["bridge", "permissions"] ["bridge", "permissions"] true

    let hasRelaybot ← dhas self ["bridge", "relaybot"]
    let base ← if !hasRelaybot then
        copy self base ["bridge", "authless_relaybot_portals"]
          ["bridge", "relaybot", "authless_portals"]
      else do
        let base ← copy self base ["bridge", "relaybot", "authless_portals"]
          ["bridge", "relaybot", "authless_portals"]
        let base ← copy self base ["bridge", "relaybot", "whitelist_group_admins"]
          ["bridge", "relaybot", "whitelist_group_admins"]
        let base ← copy self base ["bridge", "relaybot", "whitelist"]
          ["bridge", "relaybot", "whitelist"]
        copy self base ["bridge", "relaybot", "ignore_own_incoming_events"]
          ["bridge", "relaybot", "ignore_own_incoming_events"]

    let base ← copies self base
      [["telegram", "api_id"], ["telegram", "api_hash"], ["telegram", "bot_token"],
       ["telegram", "proxy", "type"], ["telegram", "proxy", "address"],
       ["telegram", "proxy", "port"], ["telegram", "proxy", "rdns"],
       ["telegram", "proxy", "username"], ["telegram", "proxy", "password"]]

    let hasDebug ← dhas self ["appservice", "debug"]
    let hasLogging ← dhas self ["logging"]
    let base ← if hasDebug && !hasLogging then do
        let dbg ← dget self ["appservice", "debug"] .null
        let level : YValue := .str (if truthy dbg then "DEBUG" else "INFO")
        let base ← dset base ["logging", "root", "level"] level
        let base ← dset base ["logging", "loggers", "mau", "level"] level
        dset base ["logging", "loggers", "telethon", "level"] level
      else copy self base ["logging"] ["logging"]

    .ok (Config_save { st with data := base })

/-! ## Identity session manager (`IntentAPI` ensure/join/leave/invite)

Remote calls either succeed or raise `MatrixRequestError` with an error
code; a scripted `World` fixes the outcome of each call.  Every remote
call and every state-store mutation is recorded, in execution order, in an
event trace. -/

/-- An observable step: a transport call or a state-store update. -/
inductive Event where
  | callRegister
  | logRegisterError
  | callJoin (room_id : String)
  | callInvite (room_id user_id : String)
  | callLeave (room_id : String)
  | cacheJoined (room_id user_id : String)
  | cacheLeft (room_id user_id : String)
  | cacheInvited (room_id user_id : String)
deriving DecidableEq, Repr

/-- An exception escaping an intent operation. -/
inductive Err where
  | intentError (message : String)
  | matrixError (errcode : String)
  | attrError
deriving DecidableEq, Repr

/-- Scripted outcomes of the remote calls an operation may make:
`none` is success, `some errcode` is a `MatrixRequestError` whose body
carries that error code.  `joinResults` lists the outcomes of successive
`client.join_room` calls. -/
structure World where
  registerResult : Option String
  joinResults : List (Option String)
  botInviteResult : Option String
  clientInviteResult : Option String
  leaveResult : Option String

/-- Outcome of the `n`-th `client.join_room` call of one operation. -/
def joinResultAt (w : World) (n : Nat) : Option String :=
  w.joinResults.getD n none

/-- The mutable state of one `IntentAPI` plus the state store it talks to.
Modelled from the spec: the state store itself is an external
collaborator (only its `is_joined`/`joined`/`left`/`invited` interface
appears in the source), keeping a `joined` and an `invited` flag per
(room, identity) pair; we represent each flag set as a list of pairs. -/
structure IState where
  mxid : String
  hasBot : Bool
  registered : Bool
  joinedPairs : List (String × String)
  invitedPairs : List (String × String)
deriving DecidableEq, Repr

/-- Modelled from the spec: `state_store.is_joined(room_id, mxid)`. -/
def store_is_joined (s : List (String × String)) (room_id user_id : String) : Bool :=
  s.contains (room_id, user_id)

/-- Modelled from the spec: `state_store.joined(room_id, mxid)` sets the
joined flag of the pair. -/
def store_joined (s : List (String × String)) (room_id user_id : String) :
    List (String × String) :=
  if s.contains (room_id, user_id) then s else (room_id, user_id) :: s

/-- Modelled from the spec: `state_store.left(room_id, mxid)` clears the
joined flag of the pair. -/
def store_left (s : List (String × String)) (room_id user_id : String) :
    List (String × String) :=
  s.filter (fun p => !(p == (room_id, user_id)))

/-- Result of one intent operation: the state afterwards, the trace of
remote calls and store updates, and the returned value or the exception. -/
structure OpResult where
  state : IState
  trace : List Event
  result : Except Err Unit
deriving Repr

/-- `IntentAPI._ensure_registered()`: returns immediately when already
registered; otherwise calls `client.register(localpart)`, swallows any
`MatrixRequestError` (logging it unless the code is `M_USER_IN_USE`), and
sets `registered = True` unconditionally. -/
def ensure_registered (w : World) (st : IState) : OpResult :=
  if st.registered then ⟨st, [], .ok ()⟩
  else
    let logged : List Event :=
      match w.registerResult with
      | some code => if code ≠ "M_USER_IN_USE" then [.logRegisterError] else []
      | none => []
    ⟨{ st with registered := true }, .callRegister :: logged, .ok ()⟩

/-- `IntentAPI._ensure_joined(room_id, ignore_cache)`: cache check, then
register, then `client.join_room`; on `MatrixRequestError` it raises
`IntentError` only when the code is not `M_FORBIDDEN` *and* there is no
bot, otherwise it attempts `bot.invite_user` followed by a retried join
(an `AttributeError` when there is no bot object), raising `IntentError`
if that inner attempt fails. -/
def ensure_joined (w : World) (st : IState) (room_id : String)
    (ignore_cache : Bool) : OpResult :=
  if !ignore_cache && store_is_joined st.joinedPairs room_id st.mxid then ⟨st, [], .ok ()⟩
  else
    let r := ensure_registered w st
    let st1 := r.state
    match joinResultAt w 0 with
    | none =>
      ⟨{ st1 with joinedPairs := store_joined st1.joinedPairs room_id st1.mxid },
       r.trace ++ [.callJoin room_id, .cacheJoined room_id st1.mxid], .ok ()⟩
    | some code =>
      if code ≠ "M_FORBIDDEN" ∧ st1.hasBot = false then
        ⟨st1, r.trace ++ [.callJoin room_id],
         .error (.intentError "Failed to join room")⟩
      else if st1.hasBot = false then
        ⟨st1, r.trace ++ [.callJoin room_id], .error .attrError⟩
      else
        match w.botInviteResult with
        | some _ =>
          ⟨st1, r.trace ++ [.callJoin room_id, .callInvite room_id st1.mxid],
           .error (.intentError "Failed to join room")⟩
        | none =>
          match joinResultAt w 1 with
          | none =>
            ⟨{ st1 with joinedPairs := store_joined st1.joinedPairs room_id st1.mxid },
             r.trace ++ [.callJoin room_id, .callInvite room_id st1.mxid,
                         .callJoin room_id, .cacheJoined room_id st1.mxid], .ok ()⟩
          | some _ =>
            ⟨st1, r.trace ++ [.callJoin room_id, .callInvite room_id st1.mxid,
                              .callJoin room_id],
             .error (.intentError "Failed to join room")⟩

/-- `IntentAPI.join_room(room_id)` = `_ensure_joined(room_id,
ignore_cache=True)`. -/
def join_room (w : World) (st : IState) (room_id : String) : OpResult :=
  ensure_joined w st room_id true

/-- `IntentAPI.leave_room(room_id)`: `state_store.left(room_id, mxid)`
first, then `client.leave_room(room_id)` (whose error propagates). -/
def leave_room (w : World) (st : IState) (room_id : String) : OpResult :=
  ⟨{ st with joinedPairs := store_left st.joinedPairs room_id st.mxid },
   [.cacheLeft room_id st.mxid, .callLeave room_id],
   match w.leaveResult with
   | none => .ok ()
   | some code => .error (.matrixError code)⟩

/-- `IntentAPI.invite(room_id, user_id)`: ensure joined, then
`client.invite_user`; on success record `invited` in the store, on
`MatrixRequestError` swallow `M_FORBIDDEN` and raise `IntentError`
otherwise. -/
def invite (w : World) (st : IState) (room_id user_id : String) : OpResult :=
  let r := ensure_joined w st room_id false
  match r.result with
  | .error e => ⟨r.state, r.trace, .error e⟩
  | .ok _ =>
    match w.clientInviteResult with
    | none =>
      ⟨{ r.state with invitedPairs := (room_id, user_id) :: r.state.invitedPairs },
       r.trace ++ [.callInvite room_id user_id, .cacheInvited room_id user_id], .ok ()⟩
    | some code =>
      if code ≠ "M_FORBIDDEN" then
        ⟨r.state, r.trace ++ [.callInvite room_id user_id],
         .error (.intentError "Failed to invite")⟩
      else ⟨r.state, r.trace ++ [.callInvite room_id user_id], .ok ()⟩

/-- Number of `client.join_room` calls in a trace. -/
def joinCallCount (tr : List Event) : Nat :=
  (tr.filter (fun e => match e with | .callJoin _ => true | _ => false)).length

/-- Number of invite calls in a trace. -/
def inviteCallCount (tr : List Event) : Nat :=
  (tr.filter (fun e => match e with | .callInvite _ _ => true | _ => false)).length

/-! ## Helper lemmas -/

@[simp]
theorem ensure_registered_result (w : World) (st : IState) :
    (ensure_registered w st).result = .ok () := by
  unfold ensure_registered; split <;> rfl

@[simp]
theorem ensure_registered_registered (w : World) (st : IState) :
    (ensure_registered w st).state.registered = true := by
  unfold ensure_registered; split <;> simp_all

@[simp]
theorem ensure_registered_mxid (w : World) (st : IState) :
    (ensure_registered w st).state.mxid = st.mxid := by
  unfold ensure_registered; split <;> rfl

@[simp]
theorem ensure_registered_hasBot (w : World) (st : IState) :
    (ensure_registered w st).state.hasBot = st.hasBot := by
  unfold ensure_registered; split <;> rfl

@[simp]
theorem ensure_registered_joinedPairs (w : World) (st : IState) :
    (ensure_registered w st).state.joinedPairs = st.joinedPairs := by
  unfold ensure_registered; split <;> rfl

@[simp]
theorem joinCallCount_ensure_registered (w : World) (st : IState) :
    joinCallCount (ensure_registered w st).trace = 0 := by
  unfold ensure_registered
  split
  · rfl
  · simp only
    split
    · split <;> simp [joinCallCount]
    · simp [joinCallCount]

@[simp]
theorem inviteCallCount_ensure_registered (w : World) (st : IState) :
    inviteCallCount (ensure_registered w st).trace = 0 := by
  unfold ensure_registered
  split
  · rfl
  · simp only
    split
    · split <;> simp [inviteCallCount]
    · simp [inviteCallCount]

@[simp]
theorem joinCallCount_append (a b : List Event) :
    joinCallCount (a ++ b) = joinCallCount a + joinCallCount b := by
  simp [joinCallCount, List.filter_append]

@[simp]
theorem inviteCallCount_append (a b : List Event) :
    inviteCallCount (a ++ b) = inviteCallCount a + inviteCallCount b := by
  simp [inviteCallCount, List.filter_append]

@[simp]
theorem store_is_joined_store_joined (s : List (String × String))
    (room_id user_id : String) :
    store_is_joined (store_joined s room_id user_id) room_id user_id = true := by
  unfold store_joined store_is_joined
  split
  · assumption
  · simp [List.contains]

@[simp]
theorem store_is_joined_store_left (s : List (String × String))
    (room_id user_id : String) :
    store_is_joined (store_left s room_id user_id) room_id user_id = false := by
  unfold store_left store_is_joined
  rw [Bool.eq_false_iff]
  intro hc
  have hm := List.elem_iff.mp hc
  have := List.of_mem_filter hm
  simp at this

theorem ensure_joined_registered (w : World) (st : IState) (room_id : String)
    (ic : Bool) (h : st.registered = true) :
    (ensure_joined w st room_id ic).state.registered = true := by
  unfold ensure_joined
  split
  · exact h
  · repeat' split
    all_goals simp only [ne_eq]
    all_goals try (split_ifs <;> simp)
    all_goals simp

theorem invite_registered (w : World) (st : IState) (room_id user_id : String)
    (h : st.registered = true) :
    (invite w st room_id user_id).state.registered = true := by
  unfold invite
  have hr := ensure_joined_registered w st room_id false h
  cases hres : (ensure_joined w st room_id false).result <;>
    cases hci : w.clientInviteResult <;>
    simp only [hres, hci, ne_eq] <;>
    (try split_ifs) <;> simp_all

/-! ## Claims -/

/-- C9: If the base template document cannot be loaded (`load_base`
returned `None`), `Config.update` is a no-op: it returns with the state —
working document, saved files and registration — exactly as it was. -/
theorem claim_C9 (newToken : String) (st : ConfigState) :
    Config_update none newToken st = .ok st := rfl

/-- C8: `leave_room` records "not joined" in the state store strictly
before issuing the remote leave call (the `cacheLeft` event precedes the
`callLeave` event in the trace), and the cache update happens for every
scripted outcome of the remote leave, including failures. -/
theorem claim_C8 (w : World) (st : IState) (room_id : String) :
    (leave_room w st room_id).trace =
      [.cacheLeft room_id st.mxid, .callLeave room_id]
    ∧ (leave_room w st room_id).state.joinedPairs =
        store_left st.joinedPairs room_id st.mxid
    ∧ store_is_joined (leave_room w st room_id).state.joinedPairs
        room_id st.mxid = false := by
  refine ⟨rfl, rfl, ?_⟩
  simp [leave_room]

/-- C6: `_ensure_registered` returns successfully and sets the registered
flag for every scripted registration outcome (success, `M_USER_IN_USE`,
or any other error code); an `M_USER_IN_USE` response is treated as plain
success (nothing is even logged); and no modeled operation of the manager
ever resets a true registered flag back to false. -/
theorem claim_C6 (w : World) (st : IState) (room_id user_id : String) (ic : Bool) :
    ((ensure_registered w st).result = .ok ()
      ∧ (ensure_registered w st).state.registered = true)
    ∧ (st.registered = false → w.registerResult = some "M_USER_IN_USE" →
        (ensure_registered w st).trace = [.callRegister])
    ∧ (st.registered = true →
        (ensure_registered w st).state.registered = true
        ∧ (ensure_joined w st room_id ic).state.registered = true
        ∧ (join_room w st room_id).state.registered = true
        ∧ (leave_room w st room_id).state.registered = true
        ∧ (invite w st room_id user_id).state.registered = true) := by
  refine ⟨⟨by simp, by simp⟩, ?_, ?_⟩
  · intro h hr
    simp [ensure_registered, h, hr]
  · intro h
    exact ⟨by simp, ensure_joined_registered w st room_id ic h,
      ensure_joined_registered w st room_id true h,
      h, invite_registered w st room_id user_id h⟩

theorem claim_C6_witness :
    ((ensure_registered ⟨some "M_UNKNOWN", [], none, none, none⟩
        ⟨"@u:hs", true, false, [], []⟩).result = .ok ()
      ∧ (ensure_registered ⟨some "M_UNKNOWN", [], none, none, none⟩
          ⟨"@u:hs", true, false, [], []⟩).state.registered = true)
    ∧ (ensure_registered ⟨some "M_USER_IN_USE", [], none, none, none⟩
        ⟨"@u:hs", true, false, [], []⟩).trace = [.callRegister]
    ∧ (leave_room ⟨some "M_UNKNOWN", [], none, none, none⟩
        ⟨"@u:hs", true, true, [], []⟩ "!r").state.registered = true := by
  refine ⟨(claim_C6 ⟨some "M_UNKNOWN", [], none, none, none⟩
      ⟨"@u:hs", true, false, [], []⟩ "!r" "@v:hs" false).1, ?_, ?_⟩
  · exact (claim_C6 ⟨some "M_USER_IN_USE", [], none, none, none⟩
      ⟨"@u:hs", true, false, [], []⟩ "!r" "@v:hs" false).2.1 rfl rfl
  · exact ((claim_C6 ⟨some "M_UNKNOWN", [], none, none, none⟩
      ⟨"@u:hs", true, true, [], []⟩ "!r" "@v:hs" false).2.2 rfl).2.2.2.1

/-- C7: when the cache does not yet record the pair as joined and the
first remote join succeeds, `_ensure_joined` issues exactly one remote
join call and records the join; a second `_ensure_joined` for the same
room then returns from the cache with an empty trace — no transport or
store activity at all. -/
theorem claim_C7 (w : World) (st : IState) (room_id : String)
    (hnj : store_is_joined st.joinedPairs room_id st.mxid = false)
    (hjr : joinResultAt w 0 = none) :
    joinCallCount (ensure_joined w st room_id false).trace = 1
    ∧ (ensure_joined w st room_id false).result = .ok ()
    ∧ ensure_joined w (ensure_joined w st room_id false).state room_id false =
        ⟨(ensure_joined w st room_id false).state, [], .ok ()⟩ := by
  have hmain : ensure_joined w st room_id false =
      ⟨{ (ensure_registered w st).state with
          joinedPairs := store_joined st.joinedPairs room_id st.mxid },
        (ensure_registered w st).trace ++
          [.callJoin room_id, .cacheJoined room_id st.mxid], .ok ()⟩ := by
    unfold ensure_joined
    simp [hnj, hjr]
  refine ⟨?_, ?_, ?_⟩
  · rw [hmain]
    have h1 : joinCallCount [Event.callJoin room_id, Event.cacheJoined room_id st.mxid] = 1 := by
      simp [joinCallCount]
    simp [h1]
  · rw [hmain]
  · rw [hmain]
    unfold ensure_joined
    simp

theorem claim_C7_witness :
    joinCallCount (ensure_joined ⟨none, [none], none, none, none⟩
      ⟨"@u:hs", true, false, [], []⟩ "!r" false).trace = 1
    ∧ ensure_joined ⟨none, [none], none, none, none⟩
        (ensure_joined ⟨none, [none], none, none, none⟩
          ⟨"@u:hs", true, false, [], []⟩ "!r" false).state "!r" false =
        ⟨(ensure_joined ⟨none, [none], none, none, none⟩
            ⟨"@u:hs", true, false, [], []⟩ "!r" false).state, [], .ok ()⟩ :=
  ⟨(claim_C7 ⟨none, [none], none, none, none⟩
      ⟨"@u:hs", true, false, [], []⟩ "!r" rfl rfl).1,
   (claim_C7 ⟨none, [none], none, none, none⟩
      ⟨"@u:hs", true, false, [], []⟩ "!r" rfl rfl).2.2⟩

/-- C2 (counterexample to the claim as stated): with a bot configured, a
first join failing with the non-forbidden code `M_UNKNOWN`, a successful
bot invite and a successful retry join, `_ensure_joined` returns
successfully after performing an invite — the claim predicted that for a
non-"forbidden" code the join-failed error is raised without any
invite-and-retry attempt. -/
theorem claim_C2_counterexample :
    (ensure_joined ⟨none, [some "M_UNKNOWN", none], none, none, none⟩
      ⟨"@u:hs", true, true, [], []⟩ "!r" false).result = .ok ()
    ∧ inviteCallCount (ensure_joined ⟨none, [some "M_UNKNOWN", none], none, none, none⟩
        ⟨"@u:hs", true, true, [], []⟩ "!r" false).trace = 1 :=
  ⟨rfl, rfl⟩

/-- C2 (amended): when the pair is not cached as joined and the first
remote join fails, then (a) if a bot is configured — for *any* failure
code, not only "forbidden" — `_ensure_joined` issues exactly one invite
by the bot and, when the invite succeeds, exactly one retry join; it
succeeds iff both the invite and the retry succeed and otherwise raises
the join-failed `IntentError`; and (b) if the failure code is not
"forbidden" *and no bot is configured*, the join-failed error is raised
without any invite-and-retry attempt. -/
theorem claim_C2_amended (w : World) (st : IState) (room_id code : String)
    (hnj : store_is_joined st.joinedPairs room_id st.mxid = false)
    (hjr : joinResultAt w 0 = some code) :
    (st.hasBot = true →
      inviteCallCount (ensure_joined w st room_id false).trace = 1
      ∧ joinCallCount (ensure_joined w st room_id false).trace =
          (if w.botInviteResult = none then 2 else 1)
      ∧ ((ensure_joined w st room_id false).result = .ok () ↔
          w.botInviteResult = none ∧ joinResultAt w 1 = none)
      ∧ ((ensure_joined w st room_id false).result = .ok ()
        ∨ (ensure_joined w st room_id false).result =
            .error (.intentError "Failed to join room")))
    ∧ (st.hasBot = false → code ≠ "M_FORBIDDEN" →
      inviteCallCount (ensure_joined w st room_id false).trace = 0
      ∧ joinCallCount (ensure_joined w st room_id false).trace = 1
      ∧ (ensure_joined w st room_id false).result =
          .error (.intentError "Failed to join room")) := by
  constructor
  · intro hb
    cases hbi : w.botInviteResult with
    | some c =>
      have he : ensure_joined w st room_id false =
          ⟨(ensure_registered w st).state,
            (ensure_registered w st).trace ++
              [.callJoin room_id, .callInvite room_id st.mxid],
            .error (.intentError "Failed to join room")⟩ := by
        unfold ensure_joined
        simp [hnj, hjr, hbi, hb]
      rw [he]
      refine ⟨?_, ?_, ?_, Or.inr rfl⟩
      · have h1 : inviteCallCount
            [Event.callJoin room_id, Event.callInvite room_id st.mxid] = 1 := by
          simp [inviteCallCount]
        simp [h1]
      · have h1 : joinCallCount
            [Event.callJoin room_id, Event.callInvite room_id st.mxid] = 1 := by
          simp [joinCallCount]
        simp [h1, hbi]
      · simp [hbi]
    | none =>
      cases hj2 : joinResultAt w 1 with
      | none =>
        have he : ensure_joined w st room_id false =
            ⟨{ (ensure_registered w st).state with
                joinedPairs := store_joined st.joinedPairs room_id st.mxid },
              (ensure_registered w st).trace ++
                [.callJoin room_id, .callInvite room_id st.mxid,
                 .callJoin room_id, .cacheJoined room_id st.mxid], .ok ()⟩ := by
          unfold ensure_joined
          simp [hnj, hjr, hbi, hb, hj2]
        rw [he]
        refine ⟨?_, ?_, ?_, Or.inl rfl⟩
        · have h1 : inviteCallCount
              [Event.callJoin room_id, Event.callInvite room_id st.mxid,
               Event.callJoin room_id, Event.cacheJoined room_id st.mxid] = 1 := by
            simp [inviteCallCount]
          simp [h1]
        · have h1 : joinCallCount
              [Event.callJoin room_id, Event.callInvite room_id st.mxid,
               Event.callJoin room_id, Event.cacheJoined room_id st.mxid] = 2 := by
            simp [joinCallCount]
          simp [h1, hj2]
        · simp [hj2]
      | some c2 =>
        have he : ensure_joined w st room_id false =
            ⟨(ensure_registered w st).state,
              (ensure_registered w st).trace ++
                [.callJoin room_id, .callInvite room_id st.mxid,
                 .callJoin room_id],
              .error (.intentError "Failed to join room")⟩ := by
          unfold ensure_joined
          simp [hnj, hjr, hbi, hb, hj2]
        rw [he]
        refine ⟨?_, ?_, ?_, Or.inr rfl⟩
        · have h1 : inviteCallCount
              [Event.callJoin room_id, Event.callInvite room_id st.mxid,
               Event.callJoin room_id] = 1 := by
            simp [inviteCallCount]
          simp [h1]
        · have h1 : joinCallCount
              [Event.callJoin room_id, Event.callInvite room_id st.mxid,
               Event.callJoin room_id] = 2 := by
            simp [joinCallCount]
          simp [h1, hj2]
        · simp [hj2]
  · intro hb hc
    have he : ensure_joined w st room_id false =
        ⟨(ensure_registered w st).state,
          (ensure_registered w st).trace ++ [.callJoin room_id],
          .error (.intentError "Failed to join room")⟩ := by
      unfold ensure_joined
      simp [hnj, hjr, hb, hc]
    rw [he]
    refine ⟨?_, ?_, rfl⟩
    · have h1 : inviteCallCount [Event.callJoin room_id] = 0 := by
        simp [inviteCallCount]
      simp [h1]
    · have h1 : joinCallCount [Event.callJoin room_id] = 1 := by
        simp [joinCallCount]
      simp [h1]

theorem claim_C2_witness :
    joinCallCount (ensure_joined ⟨none, [some "M_UNKNOWN", none], none, none, none⟩
      ⟨"@u:hs", true, true, [], []⟩ "!r" false).trace = 2
    ∧ (ensure_joined ⟨none, [some "M_UNKNOWN", none], none, none, none⟩
        ⟨"@u:hs", false, true, [], []⟩ "!r" false).result =
        .error (.intentError "Failed to join room") := by
  constructor
  · have h := (claim_C2_amended ⟨none, [some "M_UNKNOWN", none], none, none, none⟩
      ⟨"@u:hs", true, true, [], []⟩ "!r" "M_UNKNOWN" rfl rfl).1 rfl
    simpa using h.2.1
  · exact ((claim_C2_amended ⟨none, [some "M_UNKNOWN", none], none, none, none⟩
      ⟨"@u:hs", false, true, [], []⟩ "!r" "M_UNKNOWN" rfl rfl).2 rfl
      (by decide)).2.2

@[simp]
theorem pathClear_nil (p : List String) : pathClear [] p = true := by
  cases p with
  | nil => rfl
  | cons k rest => cases rest <;> simp [pathClear, alist_find?]

@[simp]
theorem alist_find?_store (d : AList) (k : String) (v : YValue) (k' : String) :
    alist_find? (alist_store d k v) k' = if k = k' then some v else alist_find? d k' := by
  induction d with
  | nil =>
    by_cases h1 : k = k' <;> simp [alist_store, alist_find?, h1]
  | cons kv rest ih =>
    obtain ⟨k0, v0⟩ := kv
    by_cases h0 : k0 = k
    · subst h0
      by_cases h1 : k0 = k' <;> simp [alist_store, alist_find?, h1]
    · by_cases h1 : k0 = k'
      · subst h1
        have hkk : ¬k = k0 := fun hh => h0 hh.symm
        simp [alist_store, alist_find?, h0, hkk]
      · simp [alist_store, alist_find?, h0, h1, ih]

theorem recursive_get_isOk (p : List String) (d : AList) (v : YValue)
    (h : pathClear d p = true) : (recursive_get d p v).isOk = true := by
  induction p generalizing d with
  | nil => simp [recursive_get, Except.isOk, Except.toBool]
  | cons k rest ih =>
    cases rest with
    | nil => simp [recursive_get, Except.isOk, Except.toBool]
    | cons k2 rest2 =>
      cases hf : alist_find? d k with
      | none =>
        simp only [recursive_get, hf, Option.getD_none]
        exact ih [] (pathClear_nil _)
      | some val =>
        cases val <;> simp_all [recursive_get, pathClear]

theorem recursive_set_isOk (p : List String) (d : AList) (v : YValue)
    (h : pathClear d p = true) : (recursive_set d p v).isOk = true := by
  induction p generalizing d with
  | nil => simp [recursive_set, Except.isOk, Except.toBool]
  | cons k rest ih =>
    cases rest with
    | nil => simp [recursive_set, Except.isOk, Except.toBool]
    | cons k2 rest2 =>
      cases hf : alist_find? d k with
      | none =>
        have hk : alist_hasKey d k = false := by simp [alist_hasKey, hf]
        have h2 := ih [] (pathClear_nil (k2 :: rest2))
        cases hs : recursive_set ([] : AList) (k2 :: rest2) v with
        | error e => simp [Except.isOk, Except.toBool, hs] at h2
        | ok m2 => simp [recursive_set, hk, hf, hs, Except.map, Except.isOk, Except.toBool]
      | some val =>
        have hk : alist_hasKey d k = true := by simp [alist_hasKey, hf]
        cases val with
        | map m =>
          have hc : pathClear m (k2 :: rest2) = true := by
            simp_all [pathClear]
          have h2 := ih m hc
          cases hs : recursive_set m (k2 :: rest2) v with
          | error e => simp [Except.isOk, Except.toBool, hs] at h2
          | ok m2 => simp [recursive_set, hk, hf, hs, Except.map, Except.isOk, Except.toBool]
        | null => simp_all [pathClear]
        | bool b => simp_all [pathClear]
        | str s => simp_all [pathClear]
        | list xs => simp_all [pathClear]

theorem recursive_del_isOk (p : List String) (d : AList)
    (h : pathClear d p = true) : (recursive_del d p).isOk = true := by
  induction p generalizing d with
  | nil => simp [recursive_del, Except.isOk, Except.toBool]
  | cons k rest ih =>
    cases rest with
    | nil => simp [recursive_del, Except.isOk, Except.toBool]
    | cons k2 rest2 =>
      cases hf : alist_find? d k with
      | none => simp [recursive_del, hf, Except.isOk, Except.toBool]
      | some val =>
        cases val with
        | map m =>
          have hc : pathClear m (k2 :: rest2) = true := by
            simp_all [pathClear]
          have h2 := ih m hc
          cases hs : recursive_del m (k2 :: rest2) with
          | error e => simp [Except.isOk, Except.toBool, hs] at h2
          | ok m2 => simp [recursive_del, hf, hs, Except.map, Except.isOk, Except.toBool]
        | null => simp_all [pathClear]
        | bool b => simp_all [pathClear]
        | str s => simp_all [pathClear]
        | list xs => simp_all [pathClear]

/-- C3: on the empty document a dotted `get("a.b.c", default)` returns the
default; after `set("a.b.c", v)` the same `get` returns `v` and the
intermediate node `"a.b"` exists as a map (containing `c`); and in
general, on any document and path whose present intermediate segments are
all maps (absent segments allowed — `pathClear`), dotted `get`, `set` and
`delete` all return without raising. -/
theorem claim_C3 (d : AList) (p : List String) (v default_value : YValue)
    (hclear : pathClear d p = true) :
    dget [] ["a", "b", "c"] default_value = .ok default_value
    ∧ ((dset [] ["a", "b", "c"] v).bind
        (fun d2 => dget d2 ["a", "b", "c"] default_value)) = .ok v
    ∧ ((dset [] ["a", "b", "c"] v).bind
        (fun d2 => dget d2 ["a", "b"] .null)) = .ok (.map [("c", v)])
    ∧ (dget d p default_value).isOk = true
    ∧ (dset d p v).isOk = true
    ∧ (ddel d p).isOk = true := by
  refine ⟨rfl, rfl, rfl, ?_, ?_, ?_⟩
  · unfold dget
    split
    · exact recursive_get_isOk p d default_value hclear
    · rfl
  · unfold dset
    split
    · exact recursive_set_isOk p d v hclear
    · rfl
  · unfold ddel
    split
    · exact recursive_del_isOk p d hclear
    · rfl

theorem claim_C3_witness :
    dget [] ["a", "b", "c"] (.str "D") = .ok (.str "D")
    ∧ ((dset [] ["a", "b", "c"] (.str "V")).bind
        (fun d2 => dget d2 ["a", "b", "c"] (.str "D"))) = .ok (.str "V")
    ∧ (dget [] ["a", "b", "c"] (.str "D")).isOk = true :=
  ⟨(claim_C3 [] ["a", "b", "c"] (.str "V") (.str "D") rfl).1,
   (claim_C3 [] ["a", "b", "c"] (.str "V") (.str "D") rfl).2.1,
   (claim_C3 [] ["a", "b", "c"] (.str "V") (.str "D") rfl).2.2.2.1⟩

@[simp]
theorem except_bind_ok {ε α β : Type} (x : α) (f : α → Except ε β) :
    (Except.ok x >>= f) = f x := rfl

@[simp]
theorem except_bind_err {ε α β : Type} (e : ε) (f : α → Except ε β) :
    ((Except.error e : Except ε α) >>= f) = Except.error e := rfl

@[simp]
theorem except_bind_pure {ε α : Type} (x : Except ε α) :
    (x >>= fun a => (Except.ok a : Except ε α)) = x := by
  cases x <;> rfl

@[simp]
theorem except_pure_eq {ε α : Type} (x : α) :
    (pure x : Except ε α) = Except.ok x := rfl

theorem find_foldlM_store (xs : List String) (v : YValue) (key : String) :
    ∀ (m out : AList),
    (xs.map YValue.str).foldlM (fun pm e => do
      let k ← asKey e
      Except.ok (alist_store pm k v)) m = .ok out →
    alist_find? out key = if key ∈ xs then some v else alist_find? m key := by
  induction xs with
  | nil =>
    intro m out h
    simp [List.foldlM] at h
    simp [h]

  | cons x xs ih =>
    intro m out h
    simp only [List.map_cons, List.foldlM_cons, asKey, except_bind_ok] at h
    have h2 := ih (alist_store m x v) out (by simpa using h)
    rw [h2]
    by_cases hx : key ∈ xs
    · simp [hx]
    · by_cases hk : x = key
      · subst hk
        simp [hx]
      · have : ¬key ∈ x :: xs := by
          simp_all [List.mem_cons]
          exact fun hh => hk hh.symm
        simp [hx, this, hk]

/-- C4: whenever the migration takes the legacy branch, the synthesized
permission map assigns `"full"` to every whitelist entry, then `"admin"`
to every admin-list entry, the admin list being applied after the
whitelist so an identity on both lists ends up `"admin"`; in particular a
source with `bridge.whitelist: ["@a:x"]` and `bridge.admins: ["@a:x"]`
migrates (through the full `Config.update`) to the permission map
`{"@a:x": "admin"}`. -/
theorem claim_C4 (self : AList) (pm0 out : AList) (wl ad : List String)
    (hp : dget self ["bridge", "permissions"] .null = .ok (.map pm0)
      ∨ (dget self ["bridge", "permissions"] .null = .ok .null ∧ pm0 = []))
    (hw : dget self ["bridge", "whitelist"] .null = .ok (.list (wl.map .str)))
    (ha : dget self ["bridge", "admins"] .null = .ok (.list (ad.map .str)))
    (hout : migratedPermissionMap self = .ok out) :
    (∀ k ∈ ad, alist_find? out k = some (.str "admin"))
    ∧ (∀ k ∈ wl, k ∉ ad → alist_find? out k = some (.str "full"))
    ∧ ((Config_update (some []) "tok"
        ⟨[("bridge", .map [("whitelist", .list [.str "@a:x"]),
                           ("admins", .list [.str "@a:x"])])], "reg", none, [], []⟩).map
        (fun st => dget st.data ["bridge", "permissions"] .null))
      = .ok (.ok (.map [("@a:x", .str "admin")])) := by
  have hstep : ∃ p1,
      (wl.map YValue.str).foldlM (fun pm e => do
        let k ← asKey e
        Except.ok (alist_store pm k (.str "full"))) pm0 = .ok p1
      ∧ (ad.map YValue.str).foldlM (fun pm e => do
          let k ← asKey e
          Except.ok (alist_store pm k (.str "admin"))) p1 = .ok out := by
    rcases hp with hp | ⟨hp, hpm⟩
    · simp only [migratedPermissionMap, hp, except_bind_ok, hw, ha, orEntries] at hout
      cases hfold : (wl.map YValue.str).foldlM (fun pm e => do
          let k ← asKey e
          Except.ok (alist_store pm k (.str "full"))) pm0 with
      | error e => simp [hfold] at hout
      | ok p1 =>
        refine ⟨p1, rfl, ?_⟩
        simpa [hfold] using hout
    · subst hpm
      simp only [migratedPermissionMap, hp, except_bind_ok, hw, ha, orEntries,
        truthy, Bool.false_eq_true, if_false] at hout
      cases hfold : (wl.map YValue.str).foldlM (fun pm e => do
          let k ← asKey e
          Except.ok (alist_store pm k (.str "full"))) ([] : AList) with
      | error e => simp [hfold] at hout
      | ok p1 =>
        refine ⟨p1, rfl, ?_⟩
        simpa [hfold] using hout
  obtain ⟨p1, hfull, hadmin⟩ := hstep
  refine ⟨?_, ?_, rfl⟩
  · intro k hk
    rw [find_foldlM_store ad (.str "admin") k p1 out hadmin]
    simp [hk]
  · intro k hkw hka
    rw [find_foldlM_store ad (.str "admin") k p1 out hadmin]
    rw [if_neg hka]
    rw [find_foldlM_store wl (.str "full") k pm0 p1 hfull]
    simp [hkw]

theorem claim_C4_witness :
    alist_find? [("@a:x", .str "admin")] "@a:x" = some (.str "admin")
    ∧ ((Config_update (some []) "tok"
        ⟨[("bridge", .map [("whitelist", .list [.str "@a:x"]),
                           ("admins", .list [.str "@a:x"])])], "reg", none, [], []⟩).map
        (fun st => dget st.data ["bridge", "permissions"] .null))
      = .ok (.ok (.map [("@a:x", .str "admin")])) := by
  have h := claim_C4
    [("bridge", .map [("whitelist", .list [.str "@a:x"]), ("admins", .list [.str "@a:x"])])]
    [] [("@a:x", .str "admin")] ["@a:x"] ["@a:x"]
    (Or.inr ⟨rfl, rfl⟩) rfl rfl rfl
  exact ⟨h.1 "@a:x" (by simp), h.2.2⟩

theorem afterColon_none (s : List Char) (h : ':' ∉ s) :
    afterColon s = .error "ValueError" := by
  induction s with
  | nil => rfl
  | cons c rest ih =>
    simp only [afterColon]
    rw [if_neg (fun hc => h (by simp [hc]))]
    exact ih (fun hm => h (List.mem_cons_of_mem _ hm))

/-- C5: `get_permissions` resolves the level by looking up the exact mxid
key, then the homeserver component after the first colon, then the `"*"`
entry which defaults to the empty string; the returned flags form the
implication chain admin → matrix_puppeting → puppeting → user → relaybot;
a matched `"admin"` yields all five flags and a matched `"user"` level
exactly the user-and-below flags. -/
theorem claim_C5 (data pm : AList) (mxid key : String) (hs : List Char)
    (hpv : dget data ["bridge", "permissions"] .null = .ok (.map pm)) :
    (alist_hasKey pm mxid = true →
      get_permissions data mxid = get_permissions_inner data mxid)
    ∧ (alist_hasKey pm mxid = false → afterColon mxid.data = .ok hs →
        (alist_hasKey pm ⟨hs⟩ = true →
          get_permissions data mxid = get_permissions_inner data ⟨hs⟩)
        ∧ (alist_hasKey pm ⟨hs⟩ = false →
          get_permissions data mxid = get_permissions_inner data "*"))
    ∧ (∀ r u p mp a lv, get_permissions_inner data key = .ok (r, u, p, mp, a, lv) →
        (a = true → mp = true) ∧ (mp = true → p = true)
        ∧ (p = true → u = true) ∧ (u = true → r = true))
    ∧ (alist_find? pm "*" = none →
        get_permissions_inner data "*" =
          .ok (false, false, false, false, false, .str ""))
    ∧ get_permissions [("bridge", .map [("permissions",
        .map [("@a:example.org", .str "admin")])])] "@a:example.org"
      = .ok (true, true, true, true, true, .str "admin")
    ∧ get_permissions [("bridge", .map [("permissions",
        .map [("example.org", .str "user")])])] "@b:example.org"
      = .ok (true, true, false, false, false, .str "user") := by
  refine ⟨?_, ?_, ?_, ?_, rfl, rfl⟩
  · intro hk
    simp [get_permissions, hpv, hk]
  · intro hk hcol
    constructor
    · intro hh
      simp [get_permissions, hpv, hk, hcol, hh]
    · intro hh
      simp [get_permissions, hpv, hk, hcol, hh]
  · intro r u p mp a lv h
    simp only [get_permissions_inner, hpv, except_bind_ok, Except.ok.injEq,
      Prod.mk.injEq] at h
    obtain ⟨hr, hu, hp, hmp, ha, hlv⟩ := h
    subst hr hu hp hmp ha
    refine ⟨fun h1 => ?_, fun h1 => ?_, fun h1 => ?_, fun h1 => ?_⟩ <;>
      simp [h1]
  · intro hw
    simp [get_permissions_inner, hpv, hw, yEqStr]

theorem claim_C5_witness :
    get_permissions [("bridge", .map [("permissions",
        .map [("@a:example.org", .str "admin")])])] "@a:example.org"
      = .ok (true, true, true, true, true, .str "admin")
    ∧ get_permissions [("bridge", .map [("permissions",
        .map [("example.org", .str "user")])])] "@b:example.org"
      = .ok (true, true, false, false, false, .str "user") :=
  ⟨(claim_C5 [("bridge", .map [("permissions",
      .map [("@a:example.org", .str "admin")])])]
      [("@a:example.org", .str "admin")] "@a:example.org" "@a:example.org"
      "example.org".data rfl).2.2.2.2.1,
   (claim_C5 [("bridge", .map [("permissions",
      .map [("example.org", .str "user")])])]
      [("example.org", .str "user")] "@b:example.org" "@b:example.org"
      "example.org".data rfl).2.2.2.2.2⟩

/-- C10: an identity string with no colon that is not an exact key of the
permission map makes `get_permissions` raise the uncaught `ValueError`
from `mxid.index(":")` instead of falling through to the `"*"` entry. -/
theorem claim_C10 (data pm : AList) (mxid : String)
    (hpv : dget data ["bridge", "permissions"] .null = .ok (.map pm))
    (hnk : alist_hasKey pm mxid = false)
    (hnc : ':' ∉ mxid.data) :
    get_permissions data mxid = .error "ValueError" := by
  simp only [get_permissions, hpv, except_bind_ok, hnk, Bool.false_eq_true,
    if_false]
  rw [afterColon_none mxid.data hnc]
  rfl

theorem claim_C10_witness :
    get_permissions [("bridge", .map [("permissions",
        .map [("example.org", .str "user")])])] "nocolon"
      = .error "ValueError" :=
  claim_C10 [("bridge", .map [("permissions",
      .map [("example.org", .str "user")])])]
    [("example.org", .str "user")] "nocolon" rfl rfl (by decide)

theorem findSepAux_no_colon (len : Nat) (xs : List Char) :
    ∀ i, ':' ∉ xs → findSepAux len xs i = none := by
  induction xs with
  | nil => intro i _; rfl
  | cons c rest ih =>
    intro i h
    have hc : ¬c = ':' := fun hh => h (by simp [hh])
    have hr : ':' ∉ rest := fun hm => h (List.mem_cons_of_mem _ hm)
    simp [findSepAux, ih (i + 1) hr, hc]

theorem findSepAux_append (len : Nat) (tail : List Char) (j : Nat) :
    ∀ (l : List Char) (i : Nat), findSepAux len tail (i + l.length) = some j →
    findSepAux len (l ++ tail) i = some j := by
  intro l
  induction l with
  | nil => intro i h; simpa using h
  | cons c l2 ih =>
    intro i h
    have h2 : findSepAux len tail ((i + 1) + l2.length) = some j := by
      have harith : (i + 1) + l2.length = i + (c :: l2).length := by
        simp [List.length_cons]
        omega
      rw [harith]
      exact h
    have h3 := ih (i + 1) h2
    simp [findSepAux, h3]

theorem takeWhile_no_newline (xs : List Char) (h : '\n' ∉ xs) :
    xs.takeWhile (fun c => c ≠ '\n') = xs := by
  induction xs with
  | nil => rfl
  | cons c rest ih =>
    have hc : c ≠ '\n' := fun hh => h (by simp [hh])
    have hr := ih (fun hm => h (List.mem_cons_of_mem _ hm))
    rw [List.takeWhile_cons, if_pos (by simpa using hc), hr]

theorem mem_of_mem_takeWhile {p : Char → Bool} :
    ∀ (l : List Char) (c : Char), c ∈ l.takeWhile p → c ∈ l := by
  intro l
  induction l with
  | nil => intro c h; simp at h
  | cons a rest ih =>
    intro c h
    rw [List.takeWhile_cons] at h
    split at h
    · rcases List.mem_cons.mp h with h | h
      · simp [h]
      · exact List.mem_cons_of_mem _ (ih c h)
    · simp at h

theorem matchFrom_exact (l d : List Char) (hl : l ≠ []) (hd : d ≠ [])
    (hln : '\n' ∉ l) (hdn : '\n' ∉ d) (hdc : ':' ∉ d) :
    matchFrom (l ++ ':' :: d) = some (l, d) := by
  have hseg : (l ++ ':' :: d).takeWhile (fun c => c ≠ '\n') = l ++ ':' :: d := by
    apply takeWhile_no_newline
    intro hm
    rcases List.mem_append.mp hm with hm | hm
    · exact hln hm
    · rcases List.mem_cons.mp hm with hm | hm
      · exact absurd hm (by decide)
      · exact hdn hm
  have hlp : 0 < l.length := List.length_pos.mpr hl
  have hdp : 0 < d.length := List.length_pos.mpr hd
  have hnone := findSepAux_no_colon (l ++ ':' :: d).length d (l.length + 1) hdc
  have hcond : (':' : Char) = ':' ∧ 1 ≤ l.length
      ∧ l.length + 1 < (l ++ ':' :: d).length := by
    refine ⟨rfl, hlp, ?_⟩
    simp [List.length_append, List.length_cons]
    omega
  have hstep : findSepAux (l ++ ':' :: d).length (':' :: d) l.length
      = some l.length := by
    rw [show findSepAux (l ++ ':' :: d).length (':' :: d) l.length
        = (match findSepAux (l ++ ':' :: d).length d (l.length + 1) with
           | some j => some j
           | none =>
             if (':' : Char) = ':' ∧ 1 ≤ l.length
                 ∧ l.length + 1 < (l ++ ':' :: d).length
             then some l.length else none) from rfl]
    rw [hnone]
    rw [if_pos hcond]
  have hsep : findSep (l ++ ':' :: d) = some l.length := by
    unfold findSep
    apply findSepAux_append _ _ _ l 0
    simpa using hstep
  have htake : (l ++ ':' :: d).take l.length = l := List.take_left l (':' :: d)
  have hdrop : (l ++ ':' :: d).drop (l.length + 1) = d := by
    have h2 : l ++ ':' :: d = (l ++ [':']) ++ d := by simp
    have h3 : l.length + 1 = (l ++ [':']).length := by simp
    rw [h2, h3, List.drop_left]
  simp only [matchFrom]
  rw [hseg, hsep]
  simp only [htake, hdrop]

theorem mxidSearch_no_colon (s : List Char) (h : ':' ∉ s) :
    mxidSearch s = none := by
  induction s with
  | nil => rfl
  | cons c rest ih =>
    have hr : ':' ∉ rest := fun hm => h (List.mem_cons_of_mem _ hm)
    have hm : matchFrom rest = none := by
      have hseg : ':' ∉ rest.takeWhile (fun ch => ch ≠ '\n') :=
        fun hmem => hr (mem_of_mem_takeWhile rest ':' hmem)
      have hfs : findSep (rest.takeWhile (fun ch => ch ≠ '\n')) = none := by
        unfold findSep
        exact findSepAux_no_colon _ _ 0 hseg
      simp only [matchFrom]
      rw [hfs]
    by_cases hc : c = '@'
    · simp [mxidSearch, hc, hm, ih hr]
    · simp [mxidSearch, hc, ih hr]

/-- C1 (counterexample to the claim as stated): the string `x@a:b` is not
of the shape `@localpart:domain` (it does not begin with `@`), yet handle
construction succeeds on it, because `__init__` uses `re.search`, which
accepts the pattern anywhere inside the string. -/
theorem claim_C1_counterexample :
    IntentAPI_init ['x', '@', 'a', ':', 'b'] =
      .ok ⟨['x', '@', 'a', ':', 'b'], ['a'], false⟩
    ∧ List.head? ['x', '@', 'a', ':', 'b'] ≠ some '@' :=
  ⟨rfl, by decide⟩

/-- C1 (amended): construction succeeds exactly when `re.search` finds
`@(.+):(.+)` somewhere in the string.  In particular it succeeds on every
string `@l:d` with `l`, `d` nonempty and newline-free and `d` colon-free,
yielding localpart `l` (for a `d` containing a colon the greedy group
takes the later colon as separator, and a match may also start in the
middle of the string); and it fails with the invalid-identity error on
every string the pattern cannot match anywhere, e.g. any colon-free
string. -/
theorem claim_C1_amended (l d : List Char) (hl : l ≠ []) (hd : d ≠ [])
    (hln : '\n' ∉ l) (hdn : '\n' ∉ d) (hdc : ':' ∉ d) :
    IntentAPI_init ('@' :: (l ++ ':' :: d)) =
      .ok ⟨'@' :: (l ++ ':' :: d), l, false⟩
    ∧ ∀ s : List Char, ':' ∉ s → IntentAPI_init s = .error "invalid MXID" := by
  constructor
  · have hm := matchFrom_exact l d hl hd hln hdn hdc
    simp [IntentAPI_init, mxidSearch, hm]
  · intro s hs
    simp [IntentAPI_init, mxidSearch_no_colon s hs]

theorem claim_C1_witness :
    IntentAPI_init ('@' :: (['u'] ++ ':' :: ['h', 's'])) =
      .ok ⟨'@' :: (['u'] ++ ':' :: ['h', 's']), ['u'], false⟩
    ∧ IntentAPI_init ['a', 'b', 'c'] = .error "invalid MXID" :=
  ⟨(claim_C1_amended ['u'] ['h', 's'] (by decide) (by decide) (by decide)
      (by decide) (by decide)).1,
   (claim_C1_amended ['u'] ['h', 's'] (by decide) (by decide) (by decide)
      (by decide) (by decide)).2 ['a', 'b', 'c'] (by decide)⟩

end Mautrix
